import Mathlib

/-!
Verification of the button input engine of hub-robot-core (src/src/button.cpp,
src/src/button.h) through a shallow embedding in Lean 4.

The C++ class Button is embedded as a structure of the same fields; the
member functions handleOnDownInterrupt, handleOnUpInterrupt and tick are
embedded as pure state transformers.  Callback invocations are modelled as
an emitted list of events (an event is emitted exactly when the
corresponding callback slot, were it registered, would be invoked).
Timestamps and durations are the 32-bit unsigned long values of the Arduino
target, modelled as natural numbers with wrapping subtraction modulo 2^32.
-/

namespace HubRobot

/-- Modulus of the 32-bit unsigned long type used for all timestamps. -/
def ulongMod : Nat := 2 ^ 32

/-- Value of ULONG_MAX from limits.h on the 32-bit target. -/
def ULONG_MAX : Nat := ulongMod - 1

/-- Wrapping subtraction of 32-bit unsigned values, the semantics of the C
expression a - b at type unsigned long (for a, b below the modulus). -/
def usub (a b : Nat) : Nat := (a + ulongMod - b) % ulongMod

/-- The macro BUTTON_UP from button.h. -/
def BUTTON_UP : Nat := 0

/-- The macro BUTTON_DOWN from button.h. -/
def BUTTON_DOWN : Nat := 1

/-- C logical negation on an int reading, as in the expression !reading. -/
def bnot (x : Nat) : Nat := if x = 0 then 1 else 0

/-- A callback invocation of the engine: down and up carry no argument, the
three gesture callbacks carry the long argument they are invoked with. -/
inductive Event where
  | down : Event
  | up : Event
  | pressed : Nat → Event
  | doublePressed : Nat → Event
  | longPressed : Nat → Event
  deriving DecidableEq

/-- True on the edge callbacks onDown and onUp. -/
def Event.isEdge : Event → Bool
  | Event.down => true
  | Event.up => true
  | _ => false

/-- True on the gesture callbacks onPressed, onDoublePressed, onLongPressed. -/
def Event.isGesture : Event → Bool
  | Event.pressed _ => true
  | Event.doublePressed _ => true
  | Event.longPressed _ => true
  | _ => false

/-- True exactly on the onLongPressed callback. -/
def Event.isLong : Event → Bool
  | Event.longPressed _ => true
  | _ => false

/-- The mutable fields of the C++ class Button (button.h).  The pin number
and the callback slots are omitted: the pin only feeds raw acquisition,
which is an input of the embedded tick, and callbacks are modelled as
emitted events. -/
structure Button where
  state : Nat
  time_entered_state : Nat
  use_interrupts : Bool
  btn_pulls_to_ground : Bool
  state_from_interrupt : Nat
  debounce_delay_ms : Nat
  last_debounce_time : Nat
  debounce_state : Nat
  duration_in_previous_state : Nat
  long_press_time_ms : Nat
  double_press_time_ms : Nat
  last_press_time : Nat
  state_handled : Bool
  time_of_last_up : Nat
  deriving DecidableEq

/-- The constructor Button::Button (button.cpp lines 4-36); now is the value
of millis() at construction time. -/
def Button.init (debounce_delay_ms : Nat) (use_interrupts btn_pulls_to_ground : Bool)
    (long_press_time_ms double_press_time_ms : Nat) (now : Nat) : Button :=
  { state := BUTTON_UP
    time_entered_state := now
    use_interrupts := use_interrupts
    btn_pulls_to_ground := btn_pulls_to_ground
    state_from_interrupt := BUTTON_UP
    debounce_delay_ms := debounce_delay_ms
    last_debounce_time := 0
    debounce_state := BUTTON_UP
    duration_in_previous_state := 0
    long_press_time_ms := long_press_time_ms
    double_press_time_ms := double_press_time_ms
    last_press_time := 0
    state_handled := true
    time_of_last_up := 0 }

/-- Button::handleOnDownInterrupt (button.cpp lines 44-50). -/
def Button.handleOnDownInterrupt (b : Button) : Button :=
  if b.state_from_interrupt = BUTTON_DOWN then b
  else { b with state_from_interrupt := BUTTON_DOWN }

/-- Button::handleOnUpInterrupt (button.cpp lines 52-58). -/
def Button.handleOnUpInterrupt (b : Button) : Button :=
  if b.state_from_interrupt = BUTTON_UP then b
  else { b with state_from_interrupt := BUTTON_UP }

/-- Raw acquisition of Button::tick (button.cpp lines 61-69): the reading
used by the rest of the tick, from the interrupt-maintained state or from
the polled pin level, inverted when the button pulls to ground. -/
def Button.reading (b : Button) (pinLevel : Nat) : Nat :=
  if b.use_interrupts then b.state_from_interrupt
  else if b.btn_pulls_to_ground then bnot pinLevel else pinLevel

/-- Debounce tracking of Button::tick (button.cpp lines 72-75): a changed
reading restarts the debounce clock. -/
def Button.debounceStep (b : Button) (reading current_time : Nat) : Button :=
  if reading ≠ b.debounce_state then
    { b with debounce_state := reading, last_debounce_time := current_time }
  else b

/-- Promotion part of Button::tick (button.cpp lines 77-97): once the
reading has been stable for longer than the debounce delay and differs from
the stable state, the state changes, bookkeeping is recorded and the edge
callback fires. -/
def Button.promoteStep (b : Button) (reading current_time : Nat) : Button × List Event :=
  if usub current_time b.last_debounce_time > b.debounce_delay_ms then
    if reading ≠ b.state then
      let duration := usub current_time b.time_entered_state
      let b1 : Button :=
        { b with duration_in_previous_state := duration
                 time_entered_state := current_time
                 state := reading
                 state_handled := false }
      if reading = BUTTON_DOWN then
        ({ b1 with time_of_last_up := usub current_time duration
                   last_press_time := current_time }, [Event.down])
      else
        (b1, [Event.up])
    else (b, [])
  else (b, [])

/-- The expression of button.cpp line 100: the elapsed time since the
recorded previous release, with a zero record standing for never. -/
def Button.timeSinceLastUp (b : Button) (current_time : Nat) : Nat :=
  if b.time_of_last_up > 0 then usub current_time b.time_of_last_up else ULONG_MAX

/-- Gesture classification part of Button::tick (button.cpp lines 99-122):
while released and unhandled, classify the completed press as long press,
double press or single press. -/
def Button.classifyStep (b : Button) (current_time : Nat) : Button × List Event :=
  if ¬ b.state_handled ∧ b.state = BUTTON_UP then
    let time_since_last_up := b.timeSinceLastUp current_time
    if b.duration_in_previous_state ≥ b.long_press_time_ms then
      ({ b with state_handled := true }, [Event.longPressed b.duration_in_previous_state])
    else if time_since_last_up < b.double_press_time_ms ∧ b.duration_in_previous_state > 0 then
      ({ b with state_handled := true, time_of_last_up := 0 },
        [Event.doublePressed time_since_last_up])
    else if b.duration_in_previous_state > 0 ∧ time_since_last_up ≥ b.double_press_time_ms then
      ({ b with state_handled := true }, [Event.pressed b.duration_in_previous_state])
    else (b, [])
  else (b, [])

/-- Button::tick (button.cpp lines 60-123) given the already-acquired
reading: debounce tracking, then promotion, then classification. -/
def Button.tickWith (b : Button) (reading current_time : Nat) : Button × List Event :=
  let b1 := b.debounceStep reading current_time
  let p := b1.promoteStep reading current_time
  let q := p.1.classifyStep current_time
  (q.1, p.2 ++ q.2)

/-- Button::tick (button.cpp lines 60-123): acquire the reading from the
pin level (or the interrupt cell), then advance. -/
def Button.tick (b : Button) (pinLevel current_time : Nat) : Button × List Event :=
  b.tickWith (b.reading pinLevel) current_time

/-- Button::isDown (button.cpp lines 153-155). -/
def Button.isDown (b : Button) : Bool := b.state == BUTTON_DOWN

/-- Button::isUp (button.cpp lines 157-159). -/
def Button.isUp (b : Button) : Bool := b.state == BUTTON_UP

/-- Button::getTimeInLastState (button.cpp lines 145-147). -/
def Button.getTimeInLastState (b : Button) : Nat := b.duration_in_previous_state

/-- Run of repeated tick calls fed with already-normalized readings paired
with their millis timestamps, collecting all emitted events in order. -/
def Button.runWith (b : Button) (trace : List (Nat × Nat)) : Button × List Event :=
  match trace with
  | [] => (b, [])
  | x :: rest =>
    let p := b.tickWith x.1 x.2
    let q := p.1.runWith rest
    (q.1, p.2 ++ q.2)

/-- Run of repeated tick calls in polled mode, fed with pin levels paired
with their millis timestamps. -/
def Button.run (b : Button) (trace : List (Nat × Nat)) : Button × List Event :=
  match trace with
  | [] => (b, [])
  | x :: rest =>
    let p := b.tick x.1 x.2
    let q := p.1.run rest
    (q.1, p.2 ++ q.2)

/-- Delivery of a normalized level to the asynchronous edge notifier: a
DOWN level is delivered by the falling-edge handler, an UP level by the
rising-edge handler (button.cpp lines 28-35 wire the two handlers to the
two edge directions). -/
def Button.notify (b : Button) (level : Nat) : Button :=
  if level = BUTTON_DOWN then b.handleOnDownInterrupt else b.handleOnUpInterrupt

/-- Run of repeated tick calls in asynchronous-edge mode: before each tick
the notifier delivers the current level, then tick reads the interrupt
cell (the pin argument is irrelevant in this mode). -/
def Button.runInterrupt (b : Button) (trace : List (Nat × Nat)) : Button × List Event :=
  match trace with
  | [] => (b, [])
  | x :: rest =>
    let p := (b.notify x.1).tick 0 x.2
    let q := p.1.runInterrupt rest
    (q.1, p.2 ++ q.2)

/-- Normalized level of the double-press scenario of the spec: a first press
held during milliseconds 100 to 200, a second press starting 50 ms after the
first release and held during milliseconds 250 to 350. -/
def scenarioLevel (t : Nat) : Nat :=
  if 100 ≤ t ∧ t < 200 then BUTTON_DOWN
  else if 250 ≤ t ∧ t < 350 then BUTTON_DOWN
  else BUTTON_UP

/-- Polling trace of the scenario: n tick calls at a steady 5 ms cadence
starting at time 0, each reading the scenario level of its tick time. -/
def scenarioTrace (n : Nat) : List (Nat × Nat) :=
  (List.range n).map (fun k => (scenarioLevel (5 * k), 5 * k))

/-- Button of the scenario: constructed at time 0 in polled mode with the
configuration debounce 25 ms, long press 800 ms, double press 300 ms. -/
def scenarioButton : Button := Button.init 25 false false 800 300 0

/-- A released-pending button state as reached right when the first scenario
press is promoted released: pressed state recorded at 126 after a release at
time 0 left no anchor, with the raw level back up since time 200. -/
def relButton : Button :=
  { state := BUTTON_DOWN
    time_entered_state := 126
    use_interrupts := false
    btn_pulls_to_ground := false
    state_from_interrupt := BUTTON_UP
    debounce_delay_ms := 25
    last_debounce_time := 200
    debounce_state := BUTTON_UP
    duration_in_previous_state := 126
    long_press_time_ms := 800
    double_press_time_ms := 300
    last_press_time := 126
    state_handled := true
    time_of_last_up := 0 }

/-- A quiescent released button state with a pressed candidate reading
recorded since time 100, about to be promoted pressed. -/
def preButton : Button :=
  { relButton with state := BUTTON_UP, debounce_state := BUTTON_DOWN,
                   time_entered_state := 0, last_debounce_time := 100 }

/-- A released, unclassified button state whose completed press lasted
exactly the long-press threshold. -/
def longButton : Button :=
  { relButton with state := BUTTON_UP, state_handled := false,
                   duration_in_previous_state := 800 }

/-- A released, unclassified button state whose completed press lasted
100 ms with a previous release recorded at time 226. -/
def doubleButton : Button :=
  { relButton with state := BUTTON_UP, state_handled := false,
                   duration_in_previous_state := 100, time_of_last_up := 226 }

section Lemmas

/-- Wrapping subtraction agrees with truncated subtraction below the
modulus. -/
theorem usub_eq_sub {a b : Nat} (h1 : b ≤ a) (h2 : a < ulongMod) :
    usub a b = a - b := by
  unfold usub
  have h3 : a + ulongMod - b = ulongMod + (a - b) := by omega
  rw [h3, Nat.add_mod_left, Nat.mod_eq_of_lt (by omega)]

theorem usub_self {a : Nat} (h : a < ulongMod) : usub a a = 0 := by
  rw [usub_eq_sub (Nat.le_refl a) h, Nat.sub_self]

theorem debounceStep_eq {b : Button} {r t : Nat} (h : r = b.debounce_state) :
    b.debounceStep r t = b := by
  unfold Button.debounceStep
  rw [if_neg]
  simp [h]

theorem debounceStep_ne {b : Button} {r t : Nat} (h : r ≠ b.debounce_state) :
    b.debounceStep r t = { b with debounce_state := r, last_debounce_time := t } := by
  unfold Button.debounceStep
  rw [if_pos h]

theorem debounceStep_state (b : Button) (r t : Nat) :
    (b.debounceStep r t).state = b.state := by
  unfold Button.debounceStep; split <;> rfl

theorem debounceStep_handled (b : Button) (r t : Nat) :
    (b.debounceStep r t).state_handled = b.state_handled := by
  unfold Button.debounceStep; split <;> rfl

theorem debounceStep_entered (b : Button) (r t : Nat) :
    (b.debounceStep r t).time_entered_state = b.time_entered_state := by
  unfold Button.debounceStep; split <;> rfl

theorem debounceStep_duration (b : Button) (r t : Nat) :
    (b.debounceStep r t).duration_in_previous_state = b.duration_in_previous_state := by
  unfold Button.debounceStep; split <;> rfl

theorem debounceStep_lastUp (b : Button) (r t : Nat) :
    (b.debounceStep r t).time_of_last_up = b.time_of_last_up := by
  unfold Button.debounceStep; split <;> rfl

theorem debounceStep_long (b : Button) (r t : Nat) :
    (b.debounceStep r t).long_press_time_ms = b.long_press_time_ms := by
  unfold Button.debounceStep; split <;> rfl

theorem debounceStep_double (b : Button) (r t : Nat) :
    (b.debounceStep r t).double_press_time_ms = b.double_press_time_ms := by
  unfold Button.debounceStep; split <;> rfl

theorem debounceStep_delay (b : Button) (r t : Nat) :
    (b.debounceStep r t).debounce_delay_ms = b.debounce_delay_ms := by
  unfold Button.debounceStep; split <;> rfl

theorem promoteStep_stale {b : Button} {r t : Nat}
    (h : ¬ usub t b.last_debounce_time > b.debounce_delay_ms) :
    b.promoteStep r t = (b, []) := by
  unfold Button.promoteStep
  rw [if_neg h]

theorem promoteStep_same {b : Button} {r t : Nat} (h : r = b.state) :
    b.promoteStep r t = (b, []) := by
  unfold Button.promoteStep
  split
  · rw [if_neg]; simp [h]
  · rfl

theorem promoteStep_up {b : Button} {t : Nat}
    (h1 : usub t b.last_debounce_time > b.debounce_delay_ms)
    (h2 : BUTTON_UP ≠ b.state) :
    b.promoteStep BUTTON_UP t =
      ({ b with duration_in_previous_state := usub t b.time_entered_state
                time_entered_state := t
                state := BUTTON_UP
                state_handled := false }, [Event.up]) := by
  unfold Button.promoteStep
  rw [if_pos h1, if_pos h2, if_neg (by decide : ¬ BUTTON_UP = BUTTON_DOWN)]

theorem promoteStep_down {b : Button} {t : Nat}
    (h1 : usub t b.last_debounce_time > b.debounce_delay_ms)
    (h2 : BUTTON_DOWN ≠ b.state) :
    b.promoteStep BUTTON_DOWN t =
      ({ b with duration_in_previous_state := usub t b.time_entered_state
                time_entered_state := t
                state := BUTTON_DOWN
                state_handled := false
                time_of_last_up := usub t (usub t b.time_entered_state)
                last_press_time := t }, [Event.down]) := by
  unfold Button.promoteStep
  rw [if_pos h1, if_pos h2, if_pos rfl]

theorem promoteStep_ne_down {b : Button} {r t : Nat}
    (h1 : usub t b.last_debounce_time > b.debounce_delay_ms)
    (h2 : r ≠ b.state) (h3 : r ≠ BUTTON_DOWN) :
    b.promoteStep r t =
      ({ b with duration_in_previous_state := usub t b.time_entered_state
                time_entered_state := t
                state := r
                state_handled := false }, [Event.up]) := by
  unfold Button.promoteStep
  rw [if_pos h1, if_pos h2, if_neg h3]

theorem classifyStep_handled {b : Button} {t : Nat} (h : b.state_handled = true) :
    b.classifyStep t = (b, []) := by
  unfold Button.classifyStep
  rw [if_neg]
  simp [h]

theorem classifyStep_pressed {b : Button} {t : Nat} (h : b.state ≠ BUTTON_UP) :
    b.classifyStep t = (b, []) := by
  unfold Button.classifyStep
  rw [if_neg]
  simp [h]

theorem classifyStep_long {b : Button} {t : Nat}
    (hh : b.state_handled = false) (hs : b.state = BUTTON_UP)
    (hd : b.duration_in_previous_state ≥ b.long_press_time_ms) :
    b.classifyStep t =
      ({ b with state_handled := true }, [Event.longPressed b.duration_in_previous_state]) := by
  unfold Button.classifyStep
  rw [if_pos (by simp [hh, hs]), if_pos hd]

theorem classifyStep_double {b : Button} {t : Nat}
    (hh : b.state_handled = false) (hs : b.state = BUTTON_UP)
    (hd : b.duration_in_previous_state < b.long_press_time_ms)
    (hw : b.timeSinceLastUp t < b.double_press_time_ms)
    (hp : b.duration_in_previous_state > 0) :
    b.classifyStep t =
      ({ b with state_handled := true, time_of_last_up := 0 },
        [Event.doublePressed (b.timeSinceLastUp t)]) := by
  unfold Button.classifyStep
  rw [if_pos (by simp [hh, hs]), if_neg (by omega), if_pos ⟨hw, hp⟩]

theorem classifyStep_single {b : Button} {t : Nat}
    (hh : b.state_handled = false) (hs : b.state = BUTTON_UP)
    (hd : b.duration_in_previous_state < b.long_press_time_ms)
    (hw : b.timeSinceLastUp t ≥ b.double_press_time_ms)
    (hp : b.duration_in_previous_state > 0) :
    b.classifyStep t =
      ({ b with state_handled := true }, [Event.pressed b.duration_in_previous_state]) := by
  unfold Button.classifyStep
  rw [if_pos (by simp [hh, hs]), if_neg (by omega), if_neg (by omega), if_pos ⟨hp, hw⟩]

theorem classifyStep_state (b : Button) (t : Nat) :
    (b.classifyStep t).1.state = b.state := by
  unfold Button.classifyStep
  split
  · split
    · rfl
    · dsimp only
      split
      · rfl
      · split <;> rfl
  · rfl

theorem classifyStep_no_edge (b : Button) (t : Nat) :
    (b.classifyStep t).2.filter Event.isEdge = [] := by
  unfold Button.classifyStep
  split
  · split
    · simp [Event.isEdge]
    · dsimp only
      split
      · simp [Event.isEdge]
      · split <;> simp [Event.isEdge]
  · simp

theorem classifyStep_not_long {b : Button} (t : Nat)
    (hd : b.duration_in_previous_state < b.long_press_time_ms) :
    (b.classifyStep t).2.countP Event.isLong = 0 := by
  unfold Button.classifyStep
  split
  · rw [if_neg (by omega)]
    split
    · simp [Event.isLong]
    · split <;> simp [Event.isLong]
  · simp

theorem classifyStep_debounce (b : Button) (t : Nat) :
    (b.classifyStep t).1.debounce_state = b.debounce_state ∧
    (b.classifyStep t).1.last_debounce_time = b.last_debounce_time ∧
    (b.classifyStep t).1.debounce_delay_ms = b.debounce_delay_ms := by
  unfold Button.classifyStep
  split
  · split
    · exact ⟨rfl, rfl, rfl⟩
    · dsimp only
      split
      · exact ⟨rfl, rfl, rfl⟩
      · split <;> exact ⟨rfl, rfl, rfl⟩
  · exact ⟨rfl, rfl, rfl⟩

/-- A tick whose reading already equals the stable state never promotes:
the state is unchanged and no edge callback fires. -/
theorem tickWith_steady {b : Button} {r : Nat} (t : Nat) (hs : b.state = r) :
    (b.tickWith r t).1.state = r ∧ (b.tickWith r t).2.filter Event.isEdge = [] := by
  have hp : (b.debounceStep r t).promoteStep r t = (b.debounceStep r t, []) :=
    promoteStep_same (by rw [debounceStep_state, hs])
  simp only [Button.tickWith, hp, List.nil_append]
  constructor
  · rw [classifyStep_state, debounceStep_state, hs]
  · rw [classifyStep_no_edge]

/-- A tick whose reading already equals the stable state and whose pending
classification is done is pure debounce bookkeeping: no callback at all
fires and the classification flag stays done. -/
theorem tickWith_steady_handled {b : Button} {r : Nat} (t : Nat)
    (hs : b.state = r) (hh : b.state_handled = true) :
    b.tickWith r t = (b.debounceStep r t, []) := by
  have hp : (b.debounceStep r t).promoteStep r t = (b.debounceStep r t, []) :=
    promoteStep_same (by rw [debounceStep_state, hs])
  have hc : (b.debounceStep r t).classifyStep t = (b.debounceStep r t, []) :=
    classifyStep_handled (by rw [debounceStep_handled]; exact hh)
  simp only [Button.tickWith, hp, hc, List.append_nil]

/-- Run version of tickWith_steady_handled: with the reading held at the
stable state and the classification done, no callback ever fires. -/
theorem runWith_steady_handled {b : Button} {r : Nat}
    (hs : b.state = r) (hh : b.state_handled = true) (ts : List Nat) :
    (b.runWith (ts.map (fun s => (r, s)))).2 = [] := by
  induction ts generalizing b with
  | nil => rfl
  | cons t rest ih =>
    simp only [List.map_cons, Button.runWith, tickWith_steady_handled t hs hh,
      List.nil_append]
    exact ih (b := b.debounceStep r t)
      (by rw [debounceStep_state]; exact hs) (by rw [debounceStep_handled]; exact hh)

/-- A tick during a held press (reading and stable state both pressed) is
pure debounce bookkeeping: the classifier is gated on the released state,
so no callback at all fires. -/
theorem tickWith_steady_pressed {b : Button} (t : Nat)
    (hs : b.state = BUTTON_DOWN) :
    b.tickWith BUTTON_DOWN t = (b.debounceStep BUTTON_DOWN t, []) := by
  have hp : (b.debounceStep BUTTON_DOWN t).promoteStep BUTTON_DOWN t =
      (b.debounceStep BUTTON_DOWN t, []) :=
    promoteStep_same (by rw [debounceStep_state, hs])
  have hc : (b.debounceStep BUTTON_DOWN t).classifyStep t =
      (b.debounceStep BUTTON_DOWN t, []) :=
    classifyStep_pressed (by rw [debounceStep_state, hs]; decide)
  simp only [Button.tickWith, hp, hc, List.append_nil]

/-- Run version of tickWith_steady_pressed: while the press is held, no
callback of any kind fires. -/
theorem runWith_steady_pressed {b : Button} (hs : b.state = BUTTON_DOWN)
    (ts : List Nat) :
    (b.runWith (ts.map (fun s => (BUTTON_DOWN, s)))).2 = [] := by
  induction ts generalizing b with
  | nil => rfl
  | cons t rest ih =>
    simp only [List.map_cons, Button.runWith, tickWith_steady_pressed t hs,
      List.nil_append]
    exact ih (b := b.debounceStep BUTTON_DOWN t) (by rw [debounceStep_state]; exact hs)

/-- Run version of tickWith_steady: with the reading held at the stable
state, the stable state never changes and no edge callback fires. -/
theorem runWith_steady {b : Button} {r : Nat} (hs : b.state = r) (ts : List Nat) :
    (b.runWith (ts.map (fun s => (r, s)))).1.state = r ∧
    (b.runWith (ts.map (fun s => (r, s)))).2.filter Event.isEdge = [] := by
  induction ts generalizing b with
  | nil => exact ⟨hs, rfl⟩
  | cons t rest ih =>
    have h1 := tickWith_steady (b := b) t hs
    have h2 := ih (b := (b.tickWith r t).1) h1.1
    simp only [List.map_cons, Button.runWith, List.filter_append]
    exact ⟨h2.1, by rw [h1.2, h2.2]; rfl⟩

/-- A tick that promotes the stable state to released, immediately after
which the press duration is positive: exactly what happens at a debounced
release with monotone time. -/
theorem classifyStep_total {b : Button} {t : Nat} (hh : b.state_handled = false)
    (hs : b.state = BUTTON_UP) (hp : b.duration_in_previous_state > 0) :
    (b.classifyStep t).2.countP Event.isGesture = 1 ∧
    (b.classifyStep t).1.state = BUTTON_UP ∧
    (b.classifyStep t).1.state_handled = true := by
  by_cases hL : b.duration_in_previous_state ≥ b.long_press_time_ms
  · rw [classifyStep_long hh hs hL]
    refine ⟨by simp [Event.isGesture], hs, rfl⟩
  · by_cases hW : b.timeSinceLastUp t < b.double_press_time_ms
    · rw [classifyStep_double hh hs (by omega) hW hp]
      refine ⟨by simp [Event.isGesture], hs, rfl⟩
    · rw [classifyStep_single hh hs (by omega) (by omega) hp]
      refine ⟨by simp [Event.isGesture], hs, rfl⟩

end Lemmas

section Claims

/-- C7: delivering the same raw level to the asynchronous edge notifier
twice in a row yields exactly the engine state one delivery yields: both
interrupt handlers are idempotent on the whole state. -/
theorem button_c7_notifier_idempotent (b : Button) :
    b.handleOnDownInterrupt.handleOnDownInterrupt = b.handleOnDownInterrupt ∧
    b.handleOnUpInterrupt.handleOnUpInterrupt = b.handleOnUpInterrupt := by
  constructor
  · by_cases h : b.state_from_interrupt = BUTTON_DOWN <;>
      simp [Button.handleOnDownInterrupt, h]
  · by_cases h : b.state_from_interrupt = BUTTON_UP <;>
      simp [Button.handleOnUpInterrupt, h]

set_option maxRecDepth 10000 in
/-- C1 counterexample: in the spec scenario (debounce 25, long press 800,
double press 300, press held 100 ms, release, second press 50 ms later,
release, tick every 5 ms), the engine does fire onPressed with 100 for the
first cycle, and the double-press gap it reports is not the claimed 50 ms. -/
theorem button_c1_counterexample :
    Event.pressed 100 ∈ (scenarioButton.run (scenarioTrace 81)).2 ∧
    Event.doublePressed 50 ∉ (scenarioButton.run (scenarioTrace 81)).2 := by
  decide

set_option maxRecDepth 10000 in
/-- C1 amended: in the spec scenario the engine fires, in order, onDown,
onUp and onPressed 100 for the first cycle (the single press is reported
immediately at the first release), then onDown, onUp and onDoublePressed
150 for the second cycle; the reported gap of 150 ms spans from the first
debounced release promotion to the second one, so it includes the second
press hold, and the earlier single-press report is not cancelled. -/
theorem button_c1_scenario_events :
    (scenarioButton.run (scenarioTrace 81)).2 =
      [Event.down, Event.up, Event.pressed 100, Event.down, Event.up,
        Event.doublePressed 150] := by
  decide

set_option maxRecDepth 10000 in
/-- C2 counterexample: after the single 100 ms press of the scenario, the
state is still pressed going into the tick at time 230, and that very tick
both promotes the release (onUp) and fires onPressed 100 - the single-press
classification does not wait out the 300 ms double-press window. -/
theorem button_c2_counterexample :
    (scenarioButton.run (scenarioTrace 46)).1.state = BUTTON_DOWN ∧
    ((scenarioButton.run (scenarioTrace 46)).1.tick BUTTON_UP 230).2 =
      [Event.up, Event.pressed 100] := by
  decide

set_option maxRecDepth 10000 in
/-- C2 amended: a completed press below the long-press threshold is
classified on the very tick that promotes its release: onPressed fires
together with onUp on that same tick whenever the time since the recorded
previous release (taken as ULONG_MAX when no previous release is recorded)
is at least the double-press window; no waiting after this release occurs. -/
theorem button_c2_immediate_single (b : Button) (t : Nat)
    (hs : b.state = BUTTON_DOWN) (hdb : b.debounce_state = BUTTON_UP)
    (hdly : usub t b.last_debounce_time > b.debounce_delay_ms)
    (hdur : 0 < usub t b.time_entered_state)
    (hlong : usub t b.time_entered_state < b.long_press_time_ms)
    (hgap : b.timeSinceLastUp t ≥ b.double_press_time_ms) :
    (b.tickWith BUTTON_UP t).2 =
      [Event.up, Event.pressed (usub t b.time_entered_state)] := by
  have hd1 : b.debounceStep BUTTON_UP t = b := debounceStep_eq hdb.symm
  have hpu := promoteStep_up (b := b) (t := t) hdly (by rw [hs]; decide)
  have hc := classifyStep_single
    (b := { b with duration_in_previous_state := usub t b.time_entered_state
                   time_entered_state := t
                   state := BUTTON_UP
                   state_handled := false }) (t := t)
    rfl rfl hlong hgap hdur
  simp only [Button.tickWith, hd1, hpu, hc]
  rfl

set_option maxRecDepth 10000 in
/-- C5 counterexample: right before the scenario press is debounced, the
classification flag state_handled is true; the tick at time 130 promotes
the stable state to pressed, fires onDown, and flips state_handled to
false - the promotion to PRESSED does modify the flag. -/
theorem button_c5_counterexample :
    (scenarioButton.run (scenarioTrace 26)).1.state_handled = true ∧
    ((scenarioButton.run (scenarioTrace 26)).1.tick BUTTON_DOWN 130).1.state =
      BUTTON_DOWN ∧
    ((scenarioButton.run (scenarioTrace 26)).1.tick BUTTON_DOWN 130).2 =
      [Event.down] ∧
    ((scenarioButton.run (scenarioTrace 26)).1.tick BUTTON_DOWN 130).1.state_handled =
      false := by
  decide

/-- C5 amended: on a promotion whose new stable state is PRESSED the engine
records the press timestamp in last_press_time, stores the previous release
timestamp, invokes onDown only, and also sets the classification flag
state_handled to false, as it does at every promotion; the flag is set to
false again when the next RELEASED period begins. -/
theorem button_c5_down_promotion (b : Button) (t : Nat)
    (hs : b.state = BUTTON_UP) (hdb : b.debounce_state = BUTTON_DOWN)
    (hdly : usub t b.last_debounce_time > b.debounce_delay_ms) :
    (b.tickWith BUTTON_DOWN t).1.last_press_time = t ∧
    (b.tickWith BUTTON_DOWN t).1.time_of_last_up =
      usub t (usub t b.time_entered_state) ∧
    (b.tickWith BUTTON_DOWN t).2 = [Event.down] ∧
    (b.tickWith BUTTON_DOWN t).1.state_handled = false := by
  have hd1 : b.debounceStep BUTTON_DOWN t = b := debounceStep_eq hdb.symm
  have hpd := promoteStep_down (b := b) (t := t) hdly (by rw [hs]; decide)
  have hc := classifyStep_pressed
    (b := { b with duration_in_previous_state := usub t b.time_entered_state
                   time_entered_state := t
                   state := BUTTON_DOWN
                   state_handled := false
                   time_of_last_up := usub t (usub t b.time_entered_state)
                   last_press_time := t }) (t := t)
    ((by decide : BUTTON_DOWN ≠ BUTTON_UP))
  simp [Button.tickWith, hd1, hpd, hc]

/-- C6: with no promotion pending on this tick, a completed press whose
recorded duration equals exactly the long-press threshold is classified as
a long press with that duration, while a recorded duration one millisecond
short of the threshold is never classified as a long press. -/
theorem button_c6_long_boundary (b : Button) (t : Nat)
    (hs : b.state = BUTTON_UP) (hh : b.state_handled = false) :
    (b.duration_in_previous_state = b.long_press_time_ms →
      (b.tickWith BUTTON_UP t).2 = [Event.longPressed b.long_press_time_ms]) ∧
    (b.duration_in_previous_state + 1 = b.long_press_time_ms →
      (b.tickWith BUTTON_UP t).2.countP Event.isLong = 0) := by
  have hps : (b.debounceStep BUTTON_UP t).promoteStep BUTTON_UP t =
      (b.debounceStep BUTTON_UP t, []) :=
    promoteStep_same (by rw [debounceStep_state, hs])
  constructor
  · intro hd
    have hc := classifyStep_long (b := b.debounceStep BUTTON_UP t) (t := t)
      (by rw [debounceStep_handled]; exact hh)
      (by rw [debounceStep_state]; exact hs)
      (by rw [debounceStep_duration, debounceStep_long, hd])
    simp only [Button.tickWith, hps, hc, List.nil_append,
      debounceStep_duration, hd]
  · intro hd
    have hc := classifyStep_not_long (b := b.debounceStep BUTTON_UP t) t
      (by rw [debounceStep_duration, debounceStep_long]; omega)
    simp only [Button.tickWith, hps, List.nil_append]
    exact hc

/-- C6 witness: a released, unclassified state whose press lasted exactly
the 800 ms threshold is classified as a long press of 800 ms. -/
theorem button_c6_witness :
    longButton.state = BUTTON_UP ∧ longButton.state_handled = false ∧
    longButton.duration_in_previous_state = longButton.long_press_time_ms ∧
    (longButton.tickWith BUTTON_UP 900).2 = [Event.longPressed 800] :=
  ⟨rfl, rfl, rfl, (button_c6_long_boundary longButton 900 rfl rfl).1 rfl⟩

/-- C2 witness: the released-pending state reached right at the first
scenario release fires onUp and onPressed 100 on the promoting tick at
time 226 itself. -/
theorem button_c2_witness :
    relButton.state = BUTTON_DOWN ∧ relButton.debounce_state = BUTTON_UP ∧
    usub 226 relButton.last_debounce_time > relButton.debounce_delay_ms ∧
    0 < usub 226 relButton.time_entered_state ∧
    usub 226 relButton.time_entered_state < relButton.long_press_time_ms ∧
    relButton.timeSinceLastUp 226 ≥ relButton.double_press_time_ms ∧
    (relButton.tickWith BUTTON_UP 226).2 = [Event.up, Event.pressed 100] :=
  ⟨rfl, rfl, by decide, by decide, by decide, by decide,
    button_c2_immediate_single relButton 226 rfl rfl (by decide) (by decide)
      (by decide) (by decide)⟩

/-- C5 witness: a quiescent released state with a fresh pressed candidate
is promoted at time 130, records the press time and the previous release
anchor, fires onDown only, and clears state_handled. -/
theorem button_c5_witness :
    preButton.state = BUTTON_UP ∧ preButton.debounce_state = BUTTON_DOWN ∧
    usub 130 preButton.last_debounce_time > preButton.debounce_delay_ms ∧
    (preButton.tickWith BUTTON_DOWN 130).1.last_press_time = 130 ∧
    (preButton.tickWith BUTTON_DOWN 130).2 = [Event.down] ∧
    (preButton.tickWith BUTTON_DOWN 130).1.state_handled = false := by
  have h := button_c5_down_promotion preButton 130 rfl rfl (by decide)
  exact ⟨rfl, rfl, by decide, h.1, h.2.2.1, h.2.2.2⟩

/-- C3: no callback fires on ticks during the held press, a tick that then
promotes a debounced release of a press with positive recorded duration
fires exactly one gesture callback on that very tick, leaves the state
released with the classification marked done, and on any further ticks
with the reading held released no callback at all fires: exactly one
gesture per completed press-release cycle, never zero, never two, with
state_handled blocking any further classification of the RELEASED period. -/
theorem button_c3_exactly_one (b : Button) (t : Nat)
    (hs : b.state = BUTTON_DOWN) (hdb : b.debounce_state = BUTTON_UP)
    (hdly : usub t b.last_debounce_time > b.debounce_delay_ms)
    (hdur : 0 < usub t b.time_entered_state) :
    (∀ ts : List Nat, (b.runWith (ts.map (fun s => (BUTTON_DOWN, s)))).2 = []) ∧
    (b.tickWith BUTTON_UP t).2.countP Event.isGesture = 1 ∧
    (b.tickWith BUTTON_UP t).1.state = BUTTON_UP ∧
    (b.tickWith BUTTON_UP t).1.state_handled = true ∧
    ∀ ts : List Nat,
      ((b.tickWith BUTTON_UP t).1.runWith (ts.map (fun s => (BUTTON_UP, s)))).2 = [] := by
  refine And.intro (fun ts => runWith_steady_pressed hs ts) ?_
  have hd1 : b.debounceStep BUTTON_UP t = b := debounceStep_eq hdb.symm
  have hpu := promoteStep_up (b := b) (t := t) hdly (by rw [hs]; decide)
  have hcl := classifyStep_total
    (b := { b with duration_in_previous_state := usub t b.time_entered_state
                   time_entered_state := t
                   state := BUTTON_UP
                   state_handled := false }) (t := t)
    rfl rfl hdur
  simp only [Button.tickWith, hd1, hpu, List.countP_append]
  refine ⟨?_, hcl.2.1, hcl.2.2, fun ts => runWith_steady_handled hcl.2.1 hcl.2.2 ts⟩
  rw [hcl.1]
  rfl

/-- C3 witness: the released-pending state reached at the first scenario
release fires nothing while the press is held, classifies exactly one
gesture at the promoting tick at time 226, and stays silent on later
released ticks. -/
theorem button_c3_witness :
    relButton.state = BUTTON_DOWN ∧ relButton.debounce_state = BUTTON_UP ∧
    usub 226 relButton.last_debounce_time > relButton.debounce_delay_ms ∧
    0 < usub 226 relButton.time_entered_state ∧
    (relButton.runWith [(BUTTON_DOWN, 210), (BUTTON_DOWN, 220)]).2 = [] ∧
    (relButton.tickWith BUTTON_UP 226).2.countP Event.isGesture = 1 ∧
    ((relButton.tickWith BUTTON_UP 226).1.runWith
      [(BUTTON_UP, 300), (BUTTON_UP, 400)]).2 = [] := by
  have h := button_c3_exactly_one relButton 226 rfl rfl (by decide) (by decide)
  exact ⟨rfl, rfl, by decide, by decide, h.1 [210, 220], h.2.1, h.2.2.2.2 [300, 400]⟩

/-- C10: at a promotion to PRESSED, the engine stores now minus the freshly
computed previous-state duration as the previous release anchor; and a
release classification of a press of positive duration below the long-press
threshold fires on-double-pressed exactly when the time since that anchor
(ULONG_MAX when the anchor is zero) is below the double-press window,
passing that very difference as the gap, and otherwise fires on-pressed. -/
theorem button_c10_release_anchor (b : Button) (t : Nat) :
    (b.state = BUTTON_UP → b.debounce_state = BUTTON_DOWN →
      usub t b.last_debounce_time > b.debounce_delay_ms →
      (b.tickWith BUTTON_DOWN t).1.duration_in_previous_state =
        usub t b.time_entered_state ∧
      (b.tickWith BUTTON_DOWN t).1.time_of_last_up =
        usub t ((b.tickWith BUTTON_DOWN t).1.duration_in_previous_state)) ∧
    (b.state = BUTTON_UP → b.state_handled = false →
      0 < b.duration_in_previous_state →
      b.duration_in_previous_state < b.long_press_time_ms →
      (b.tickWith BUTTON_UP t).2 =
        (if b.timeSinceLastUp t < b.double_press_time_ms then
          [Event.doublePressed (b.timeSinceLastUp t)]
        else [Event.pressed b.duration_in_previous_state])) := by
  constructor
  · intro hs hdb hdly
    have hd1 : b.debounceStep BUTTON_DOWN t = b := debounceStep_eq hdb.symm
    have hpd := promoteStep_down (b := b) (t := t) hdly (by rw [hs]; decide)
    have hc := classifyStep_pressed
      (b := { b with duration_in_previous_state := usub t b.time_entered_state
                     time_entered_state := t
                     state := BUTTON_DOWN
                     state_handled := false
                     time_of_last_up := usub t (usub t b.time_entered_state)
                     last_press_time := t }) (t := t)
      ((by decide : BUTTON_DOWN ≠ BUTTON_UP))
    simp [Button.tickWith, hd1, hpd, hc]
  · intro hs hh hp hd
    have hps : (b.debounceStep BUTTON_UP t).promoteStep BUTTON_UP t =
        (b.debounceStep BUTTON_UP t, []) :=
      promoteStep_same (by rw [debounceStep_state, hs])
    have htslu : (b.debounceStep BUTTON_UP t).timeSinceLastUp t =
        b.timeSinceLastUp t := by
      unfold Button.timeSinceLastUp
      rw [debounceStep_lastUp]
    by_cases hW : b.timeSinceLastUp t < b.double_press_time_ms
    · have hc := classifyStep_double (b := b.debounceStep BUTTON_UP t) (t := t)
        (by rw [debounceStep_handled]; exact hh)
        (by rw [debounceStep_state]; exact hs)
        (by rw [debounceStep_duration, debounceStep_long]; exact hd)
        (by rw [htslu, debounceStep_double]; exact hW)
        (by rw [debounceStep_duration]; exact hp)
      rw [if_pos hW]
      simp only [Button.tickWith, hps, hc, List.nil_append, htslu]
    · have hc := classifyStep_single (b := b.debounceStep BUTTON_UP t) (t := t)
        (by rw [debounceStep_handled]; exact hh)
        (by rw [debounceStep_state]; exact hs)
        (by rw [debounceStep_duration, debounceStep_long]; exact hd)
        (by rw [htslu, debounceStep_double]; omega)
        (by rw [debounceStep_duration]; exact hp)
      rw [if_neg hW]
      simp only [Button.tickWith, hps, hc, List.nil_append, debounceStep_duration]

/-- C10 witness: a released, unclassified state holding a 100 ms press with
a previous release recorded at 226 classifies the release at time 376 as a
double press with the 150 ms anchor difference as gap. -/
theorem button_c10_witness :
    doubleButton.state = BUTTON_UP ∧ doubleButton.state_handled = false ∧
    0 < doubleButton.duration_in_previous_state ∧
    doubleButton.duration_in_previous_state < doubleButton.long_press_time_ms ∧
    doubleButton.timeSinceLastUp 376 = 150 ∧
    (doubleButton.tickWith BUTTON_UP 376).2 = [Event.doublePressed 150] := by
  have h := (button_c10_release_anchor doubleButton 376).2 rfl rfl
    (by decide) (by decide)
  refine ⟨rfl, rfl, by decide, by decide, by decide, ?_⟩
  rw [h, if_pos (by decide)]
  decide

/-- C8: a tick performing a debounced promotion fires the matching edge
callback exactly once (onDown for a promotion to pressed, onUp for a
promotion to released), and however many further ticks follow with the raw
reading held at the new level, no edge callback ever fires again and the
stable state stays put. -/
theorem button_c8_edge_once (b : Button) (r t : Nat)
    (hne : r ≠ b.state) (hdb : b.debounce_state = r)
    (hdly : usub t b.last_debounce_time > b.debounce_delay_ms) :
    (b.tickWith r t).2.filter Event.isEdge =
      [if r = BUTTON_DOWN then Event.down else Event.up] ∧
    (b.tickWith r t).1.state = r ∧
    ∀ ts : List Nat,
      ((b.tickWith r t).1.runWith (ts.map (fun s => (r, s)))).2.filter
        Event.isEdge = [] ∧
      ((b.tickWith r t).1.runWith (ts.map (fun s => (r, s)))).1.state = r := by
  have hd1 : b.debounceStep r t = b := debounceStep_eq hdb.symm
  have hmain : (b.tickWith r t).2.filter Event.isEdge =
      [if r = BUTTON_DOWN then Event.down else Event.up] ∧
      (b.tickWith r t).1.state = r := by
    by_cases hr : r = BUTTON_DOWN
    · subst hr
      have hpd := promoteStep_down (b := b) (t := t) hdly hne
      have hc := classifyStep_pressed
        (b := { b with duration_in_previous_state := usub t b.time_entered_state
                       time_entered_state := t
                       state := BUTTON_DOWN
                       state_handled := false
                       time_of_last_up := usub t (usub t b.time_entered_state)
                       last_press_time := t }) (t := t)
        ((by decide : BUTTON_DOWN ≠ BUTTON_UP))
      constructor
      · simp [Button.tickWith, hd1, hpd, hc, Event.isEdge]
      · simp [Button.tickWith, hd1, hpd, hc]
    · have hpu := promoteStep_ne_down (b := b) (t := t) hdly hne hr
      constructor
      · rw [if_neg hr]
        simp only [Button.tickWith, hd1, hpu, List.filter_append]
        rw [classifyStep_no_edge]
        simp [Event.isEdge]
      · simp only [Button.tickWith, hd1, hpu]
        rw [classifyStep_state]
  exact ⟨hmain.1, hmain.2,
    fun ts => ⟨(runWith_steady hmain.2 ts).2, (runWith_steady hmain.2 ts).1⟩⟩

/-- C8 witness: the released-pending state promotes its release at time
226 with a single onUp, and a later tick with the reading still released
fires no edge callback. -/
theorem button_c8_witness :
    BUTTON_UP ≠ relButton.state ∧ relButton.debounce_state = BUTTON_UP ∧
    usub 226 relButton.last_debounce_time > relButton.debounce_delay_ms ∧
    (relButton.tickWith BUTTON_UP 226).2.filter Event.isEdge = [Event.up] ∧
    ((relButton.tickWith BUTTON_UP 226).1.runWith
      [(BUTTON_UP, 300), (BUTTON_UP, 400)]).2.filter Event.isEdge = [] := by
  have h := button_c8_edge_once relButton BUTTON_UP 226 (by decide) rfl (by decide)
  exact ⟨by decide, rfl, by decide, by simpa using h.1, (h.2.2 [300, 400]).1⟩

/-- Debounce-burst invariant: starting quiescent (or with a candidate whose
debounce clock restarted within the window), a run of ticks whose times all
stay within one debounce window of the anchor never changes the stable
state and never fires an edge callback. -/
theorem c4_aux (t0 : Nat) (trace : List (Nat × Nat)) :
    ∀ (b : Button) (lo : Nat),
      t0 ≤ lo →
      t0 + b.debounce_delay_ms < ulongMod →
      (b.debounce_state = b.state ∨
        (t0 ≤ b.last_debounce_time ∧ b.last_debounce_time ≤ lo)) →
      (∀ p ∈ trace, lo ≤ p.2 ∧ p.2 ≤ t0 + b.debounce_delay_ms) →
      List.Pairwise (fun p q : Nat × Nat => p.2 ≤ q.2) trace →
      (b.runWith trace).1.state = b.state ∧
      (b.runWith trace).2.filter Event.isEdge = [] := by
  induction trace with
  | nil =>
    intro b lo _ _ _ _ _
    exact ⟨rfl, rfl⟩
  | cons x rest ih =>
    obtain ⟨l, t⟩ := x
    intro b lo hlo hM hinv htimes hsorted
    have hx := htimes (l, t) (List.mem_cons_self _ _)
    have htM : t < ulongMod := lt_of_le_of_lt hx.2 hM
    have key : (b.tickWith l t).2.filter Event.isEdge = [] ∧
        (b.tickWith l t).1.state = b.state ∧
        (b.tickWith l t).1.debounce_delay_ms = b.debounce_delay_ms ∧
        ((b.tickWith l t).1.debounce_state = (b.tickWith l t).1.state ∨
          (t0 ≤ (b.tickWith l t).1.last_debounce_time ∧
            (b.tickWith l t).1.last_debounce_time ≤ t)) := by
      by_cases hdb : l = b.debounce_state
      · have hd1 : b.debounceStep l t = b := debounceStep_eq hdb
        have hnpA : b.promoteStep l t = (b, []) := by
          by_cases hls : l = b.state
          · exact promoteStep_same hls
          · rcases hinv with h1 | h2
            · exact absurd (hdb.trans h1) hls
            · apply promoteStep_stale
              have hsub : usub t b.last_debounce_time = t - b.last_debounce_time :=
                usub_eq_sub (le_trans h2.2 hx.1) htM
              rw [hsub]
              have ht2 := hx.2
              have ht1 := h2.1
              omega
        simp only [Button.tickWith, hd1, hnpA, List.nil_append]
        refine ⟨classifyStep_no_edge b t, classifyStep_state b t,
          (classifyStep_debounce b t).2.2, ?_⟩
        rcases hinv with h1 | h2
        · left
          rw [(classifyStep_debounce b t).1, classifyStep_state]
          exact h1
        · right
          rw [(classifyStep_debounce b t).2.1]
          exact ⟨h2.1, le_trans h2.2 hx.1⟩
      · have hnpB : ({ b with debounce_state := l, last_debounce_time := t } :
            Button).promoteStep l t =
            ({ b with debounce_state := l, last_debounce_time := t }, []) := by
          apply promoteStep_stale
          rw [show ({ b with debounce_state := l, last_debounce_time := t } :
            Button).last_debounce_time = t from rfl]
          rw [usub_self htM]
          exact Nat.not_lt_zero _
        simp only [Button.tickWith, debounceStep_ne hdb, hnpB, List.nil_append]
        refine ⟨classifyStep_no_edge _ t, ?_, ?_, ?_⟩
        · rw [classifyStep_state]
        · rw [(classifyStep_debounce _ t).2.2]
        · right
          rw [(classifyStep_debounce _ t).2.1]
          exact ⟨le_trans hlo hx.1, Nat.le_refl t⟩
    have hrest : ∀ p ∈ rest, t ≤ p.2 ∧
        p.2 ≤ t0 + (b.tickWith l t).1.debounce_delay_ms := by
      intro p hp
      refine ⟨(List.pairwise_cons.mp hsorted).1 p hp, ?_⟩
      rw [key.2.2.1]
      exact (htimes p (List.mem_cons_of_mem _ hp)).2
    have hM2 : t0 + (b.tickWith l t).1.debounce_delay_ms < ulongMod := by
      rw [key.2.2.1]
      exact hM
    have ih2 := ih (b.tickWith l t).1 t (le_trans hlo hx.1) hM2 key.2.2.2
      hrest (List.pairwise_cons.mp hsorted).2
    constructor
    · simp only [Button.runWith]
      rw [ih2.1, key.2.1]
    · simp only [Button.runWith, List.filter_append]
      rw [key.1, ih2.2]
      rfl

/-- C4: for any sequence of raw readings ticked at nondecreasing times that
all fall within one debounce window of the anchor time, a button whose
candidate agrees with its stable state keeps its stable state unchanged and
fires no onDown or onUp callback: a bouncing signal never promotes. -/
theorem button_c4_debounce_suppression (b : Button) (t0 : Nat)
    (trace : List (Nat × Nat))
    (hq : b.debounce_state = b.state)
    (hM : t0 + b.debounce_delay_ms < ulongMod)
    (ht : ∀ p ∈ trace, t0 ≤ p.2 ∧ p.2 ≤ t0 + b.debounce_delay_ms)
    (hp : List.Pairwise (fun p q : Nat × Nat => p.2 ≤ q.2) trace) :
    (b.runWith trace).1.state = b.state ∧
    (b.runWith trace).2.filter Event.isEdge = [] :=
  c4_aux t0 trace b t0 (Nat.le_refl t0) hM (Or.inl hq) ht hp

/-- C4 witness: four raw toggles at times 10, 18, 26, 34, all inside the
25 ms debounce window anchored at 10, leave the scenario button released
and fire no edge callback. -/
theorem button_c4_witness :
    scenarioButton.debounce_state = scenarioButton.state ∧
    (scenarioButton.runWith
      [(1, 10), (0, 18), (1, 26), (0, 34)]).1.state = scenarioButton.state ∧
    (scenarioButton.runWith
      [(1, 10), (0, 18), (1, 26), (0, 34)]).2.filter Event.isEdge = [] := by
  have h := button_c4_debounce_suppression scenarioButton 10
    [(1, 10), (0, 18), (1, 26), (0, 34)] rfl (by decide) (by decide) (by decide)
  exact ⟨rfl, h.1, h.2⟩

theorem debounceStep_use (b : Button) (r t : Nat) :
    (b.debounceStep r t).use_interrupts = b.use_interrupts := by
  unfold Button.debounceStep; split <;> rfl

theorem debounceStep_pulls (b : Button) (r t : Nat) :
    (b.debounceStep r t).btn_pulls_to_ground = b.btn_pulls_to_ground := by
  unfold Button.debounceStep; split <;> rfl

theorem promoteStep_config (b : Button) (r t : Nat) :
    (b.promoteStep r t).1.use_interrupts = b.use_interrupts ∧
    (b.promoteStep r t).1.btn_pulls_to_ground = b.btn_pulls_to_ground := by
  unfold Button.promoteStep
  split
  · split
    · dsimp only
      split <;> exact ⟨rfl, rfl⟩
    · exact ⟨rfl, rfl⟩
  · exact ⟨rfl, rfl⟩

theorem classifyStep_config (b : Button) (t : Nat) :
    (b.classifyStep t).1.use_interrupts = b.use_interrupts ∧
    (b.classifyStep t).1.btn_pulls_to_ground = b.btn_pulls_to_ground := by
  unfold Button.classifyStep
  split
  · split
    · exact ⟨rfl, rfl⟩
    · dsimp only
      split
      · exact ⟨rfl, rfl⟩
      · split <;> exact ⟨rfl, rfl⟩
  · exact ⟨rfl, rfl⟩

theorem tickWith_config (b : Button) (r t : Nat) :
    (b.tickWith r t).1.use_interrupts = b.use_interrupts ∧
    (b.tickWith r t).1.btn_pulls_to_ground = b.btn_pulls_to_ground := by
  simp only [Button.tickWith]
  constructor
  · rw [(classifyStep_config _ t).1, (promoteStep_config _ r t).1, debounceStep_use]
  · rw [(classifyStep_config _ t).2, (promoteStep_config _ r t).2, debounceStep_pulls]

theorem debounceStep_extra (b : Button) (r t : Nat) (x : Bool) (y : Nat) :
    ({ b with use_interrupts := x, state_from_interrupt := y } : Button).debounceStep r t =
      { b.debounceStep r t with use_interrupts := x, state_from_interrupt := y } := by
  cases b
  unfold Button.debounceStep
  dsimp only
  split_ifs <;> rfl

theorem promoteStep_extra (b : Button) (r t : Nat) (x : Bool) (y : Nat) :
    ({ b with use_interrupts := x, state_from_interrupt := y } : Button).promoteStep r t =
      ({ (b.promoteStep r t).1 with use_interrupts := x, state_from_interrupt := y },
        (b.promoteStep r t).2) := by
  cases b
  unfold Button.promoteStep
  dsimp only
  split_ifs <;> rfl

theorem classifyStep_extra (b : Button) (t : Nat) (x : Bool) (y : Nat) :
    ({ b with use_interrupts := x, state_from_interrupt := y } : Button).classifyStep t =
      ({ (b.classifyStep t).1 with use_interrupts := x, state_from_interrupt := y },
        (b.classifyStep t).2) := by
  cases b
  unfold Button.classifyStep Button.timeSinceLastUp
  dsimp only
  split_ifs <;> rfl

/-- The advance step neither reads nor writes the acquisition-mode flag and
the interrupt cell once the reading is fixed: overriding those two fields
commutes with tickWith. -/
theorem tickWith_extra (b : Button) (r t : Nat) (x : Bool) (y : Nat) :
    ({ b with use_interrupts := x, state_from_interrupt := y } : Button).tickWith r t =
      ({ (b.tickWith r t).1 with use_interrupts := x, state_from_interrupt := y },
        (b.tickWith r t).2) := by
  simp only [Button.tickWith, debounceStep_extra, promoteStep_extra, classifyStep_extra]

/-- Delivering a binary level through the notifier records exactly that
level in the interrupt cell and changes nothing else. -/
theorem notify_sfi {b : Button} {l : Nat} (hl : l ≤ 1) :
    b.notify l = { b with state_from_interrupt := l } := by
  unfold Button.notify Button.handleOnDownInterrupt Button.handleOnUpInterrupt
  interval_cases l
  · rw [if_neg (by decide : ¬ (0 : Nat) = BUTTON_DOWN)]
    split
    · next h =>
      cases b
      simp_all [BUTTON_UP]
    · rfl
  · rw [if_pos (by decide : (1 : Nat) = BUTTON_DOWN)]
    split
    · next h =>
      cases b
      simp_all [BUTTON_DOWN]
    · rfl

/-- Induction core of the mode-equivalence claim: a polled run and an
asynchronous-edge run fed the same normalized levels and times emit the
same events and end in states that differ at most in the acquisition-mode
flag and the interrupt cell. -/
theorem c9_aux (trace : List (Nat × Nat)) :
    ∀ (b : Button) (y : Nat),
      b.use_interrupts = false →
      b.btn_pulls_to_ground = false →
      (∀ p ∈ trace, p.1 ≤ 1) →
      (({ b with use_interrupts := true, state_from_interrupt := y } :
        Button).runInterrupt trace).2 = (b.run trace).2 ∧
      ∃ z : Nat,
        (({ b with use_interrupts := true, state_from_interrupt := y } :
          Button).runInterrupt trace).1 =
          { (b.run trace).1 with use_interrupts := true, state_from_interrupt := z } := by
  induction trace with
  | nil =>
    intro b y _ _ _
    exact ⟨rfl, y, rfl⟩
  | cons x rest ih =>
    obtain ⟨l, t⟩ := x
    intro b y hu hp hl
    have hl1 : l ≤ 1 := hl (l, t) (List.mem_cons_self _ _)
    have hnot : ({ b with use_interrupts := true, state_from_interrupt := y } :
        Button).notify l =
        { b with use_interrupts := true, state_from_interrupt := l } := by
      rw [notify_sfi hl1]
    have htick : ({ b with use_interrupts := true, state_from_interrupt := l } :
        Button).tick 0 t =
        ({ (b.tickWith l t).1 with use_interrupts := true, state_from_interrupt := l },
          (b.tickWith l t).2) := by
      unfold Button.tick
      rw [show ({ b with use_interrupts := true, state_from_interrupt := l } :
        Button).reading 0 = l from rfl]
      exact tickWith_extra b l t true l
    have hpoll : b.tick l t = b.tickWith l t := by
      unfold Button.tick
      have hr : b.reading l = l := by
        unfold Button.reading
        rw [hu, hp]
        rfl
      rw [hr]
    have ihr := ih (b.tickWith l t).1 l
      (by rw [(tickWith_config b l t).1]; exact hu)
      (by rw [(tickWith_config b l t).2]; exact hp)
      (fun p hmem => hl p (List.mem_cons_of_mem _ hmem))
    constructor
    · simp only [Button.runInterrupt, Button.run, hnot, htick, hpoll]
      rw [ihr.1]
    · obtain ⟨z, hz⟩ := ihr.2
      refine ⟨z, ?_⟩
      simp only [Button.runInterrupt, Button.run, hnot, htick, hpoll]
      rw [hz]

/-- C9: for one and the same sequence of polarity-normalized levels and
tick timestamps, the polled engine and the asynchronous-edge engine (whose
notifier is invoked with the level before each tick) emit identical event
sequences - the same promotions and the same classifications - and agree
on the resulting stable state. -/
theorem button_c9_mode_equivalence (b : Button) (y : Nat)
    (trace : List (Nat × Nat))
    (hu : b.use_interrupts = false) (hp : b.btn_pulls_to_ground = false)
    (hl : ∀ p ∈ trace, p.1 ≤ 1) :
    (({ b with use_interrupts := true, state_from_interrupt := y } :
      Button).runInterrupt trace).2 = (b.run trace).2 ∧
    (({ b with use_interrupts := true, state_from_interrupt := y } :
      Button).runInterrupt trace).1.state = (b.run trace).1.state := by
  have h := c9_aux trace b y hu hp hl
  refine ⟨h.1, ?_⟩
  obtain ⟨z, hz⟩ := h.2
  rw [hz]

/-- C9 witness: on a four-tick press-release trace the interrupt-mode run
of the scenario button emits exactly the events of the polled run. -/
theorem button_c9_witness :
    scenarioButton.use_interrupts = false ∧
    scenarioButton.btn_pulls_to_ground = false ∧
    (({ scenarioButton with use_interrupts := true, state_from_interrupt := 0 } :
      Button).runInterrupt [(1, 0), (1, 30), (0, 100), (0, 130)]).2 =
      (scenarioButton.run [(1, 0), (1, 30), (0, 100), (0, 130)]).2 := by
  have h := button_c9_mode_equivalence scenarioButton 0
    [(1, 0), (1, 30), (0, 100), (0, 130)] rfl rfl (by decide)
  exact ⟨rfl, rfl, h.1⟩

end Claims

end HubRobot
